import Mathlib

/-!
# cuultralight

A shallow embedding of `cuultralight.h`, a self-registering unit-test harness,
and theorems about its assertion operations, its message formatting and its
runner.

Conventions of the embedding:

* a `std::string` is a `List Char` that may contain the NUL character;
* a `const char *` argument is a `CString`: the characters in front of the
  terminating NUL, hence a list without NUL;
* a function that may throw returns `Except` (when it has no other effect) or
  a `Result` (when it also changes the `World`);
* `std::cout` is the list of characters written so far.
-/

namespace Cuultralight

/-! ## Strings -/

/-- The NUL character, which terminates a C string. -/
def NUL : Char := Char.ofNat 0

/-- The character written by `std::endl`. -/
def endl : Char := Char.ofNat 10

/-- A `std::string`: any sequence of characters, NUL included. -/
abbrev StdString := List Char

/-- A `const char *` that points at a C string: the characters before the
terminating NUL. -/
structure CString where
  chars : List Char
  nul_free : NUL ∉ chars
deriving DecidableEq

/-- The function `std::string::c_str()` followed by a read of the returned
pointer as a C string: the characters before the first NUL. -/
def c_str (s : StdString) : CString :=
  ⟨s.takeWhile (fun c => c != NUL), fun h => by
    have := List.mem_takeWhile_imp h
    simp at this⟩

/-- The conversion `std::string(const char *)`. -/
def CString.toStdString (s : CString) : StdString := s.chars

/-- What `operator<<` writes for an `unsigned long` under the default stream
flags: the decimal digits, without padding or grouping. -/
def decimal (n : Nat) : StdString := Nat.toDigits 10 n

/-! ## `cuu_exception` -/

/-- The class `cuu_exception`: a `std::exception` that holds one
`std::string message`. -/
structure cuu_exception where
  message : StdString
deriving DecidableEq

/-- The member `cuu_exception::what()`, which returns `message.c_str()`. -/
def cuu_exception.what (e : cuu_exception) : CString := c_str e.message

/-- What `std::exception::what() const` returns for an object whose class does
not override it. The text is implementation-defined (this is the one of
libstdc++); `cuu_exception::what()` is not `const`, so it hides this member
instead of overriding it. -/
def std_exception_what : CString := ⟨"std::exception".toList, by decide⟩

/-! ## Message formatting -/

/-- The function `cuu_condition_text`. -/
def cuu_condition_text (value : Bool) : StdString :=
  if value then "true".toList else "false".toList

/-- The function `cuu_error_location`. -/
def cuu_error_location (fileName : CString) (lineNumber : Nat) (testName : CString) :
    StdString :=
  fileName.chars ++ ":".toList ++ decimal lineNumber ++ ": ".toList ++ testName.chars
    ++ " ".toList

/-- The function `cuu_fail_error_message`. -/
def cuu_fail_error_message (fileName : CString) (lineNumber : Nat) (testName : CString)
    (message : CString) : StdString :=
  cuu_error_location fileName lineNumber testName ++ "error: ".toList ++ message.chars

/-- What the templates over `T` use of the type: `operator==` and the text
that `operator<<` writes for a value (a `std::string`, so it may hold NUL). -/
structure ValueType (T : Type) where
  eq : T → T → Bool
  print : T → StdString

/-- The template `cuu_equals_error_message<T>`; `print` is `operator<<` of `T`. -/
def cuu_equals_error_message {T : Type} (print : T → StdString) (fileName : CString)
    (lineNumber : Nat) (testName : CString) (expected actual : T) : StdString :=
  cuu_error_location fileName lineNumber testName
    ++ "expected: <".toList ++ print expected ++ "> but was: <".toList ++ print actual
    ++ ">".toList

/-- The function `cuu_bool_error_message`. -/
def cuu_bool_error_message (fileName : CString) (lineNumber : Nat) (testName : CString)
    (boolToCheckText : CString) (boolToCheck : Bool) : StdString :=
  cuu_error_location fileName lineNumber testName
    ++ "expected: ".toList ++ boolToCheckText.chars ++ " to be ".toList
    ++ cuu_condition_text (!boolToCheck)

/-! ## Assertions -/

/-- The C library function `strcmp` on the contents of two C strings: zero when
they agree, and otherwise the sign of the first difference (a string that ends
first compares as smaller). -/
def strcmp_chars : List Char → List Char → Int
  | [], [] => 0
  | [], _ :: _ => -1
  | _ :: _, [] => 1
  | a :: as, b :: bs =>
    if a = b then strcmp_chars as bs else if a.toNat < b.toNat then -1 else 1

/-- The C library function `strcmp`. -/
def strcmp (s1 s2 : CString) : Int := strcmp_chars s1.chars s2.chars

/-- The overload `cuu_assert_equal(const char *, const char *, ...)`. -/
def cuu_assert_equal_c_str (expected actual : CString) (fileName : CString)
    (lineNumber : Nat) (testName : CString) : Except cuu_exception Unit :=
  if strcmp expected actual = 0 then
    .ok ()
  else
    .error ⟨(c_str (cuu_equals_error_message CString.chars fileName lineNumber testName
      expected actual)).toStdString⟩

/-- The template `cuu_assert_equal<T>`. -/
def cuu_assert_equal {T : Type} (V : ValueType T) (expected actual : T)
    (fileName : CString) (lineNumber : Nat) (testName : CString) :
    Except cuu_exception Unit :=
  if V.eq expected actual then
    .ok ()
  else
    .error ⟨(c_str (cuu_equals_error_message V.print fileName lineNumber testName
      expected actual)).toStdString⟩

/-- The function `cuu_assert_bool`. -/
def cuu_assert_bool (boolToCheck sense : Bool) (boolToCheckText : CString)
    (fileName : CString) (lineNumber : Nat) (testName : CString) :
    Except cuu_exception Unit :=
  if boolToCheck = sense then
    .ok ()
  else
    .error ⟨(c_str (cuu_bool_error_message fileName lineNumber testName boolToCheckText
      boolToCheck)).toStdString⟩

/-- The function `cuu_fail`. -/
def cuu_fail (message : CString) (fileName : CString) (lineNumber : Nat)
    (testName : CString) : Except cuu_exception Unit :=
  .error ⟨(c_str (cuu_fail_error_message fileName lineNumber testName message)).toStdString⟩

/-- The macro `ASSERT_TRUE(x)`; `xText` is the stringified argument `#x`. -/
def ASSERT_TRUE (x : Bool) (xText : CString) (fileName : CString) (lineNumber : Nat)
    (testName : CString) : Except cuu_exception Unit :=
  cuu_assert_bool x true xText fileName lineNumber testName

/-- The macro `ASSERT_FALSE(x)`; `xText` is the stringified argument `#x`. -/
def ASSERT_FALSE (x : Bool) (xText : CString) (fileName : CString) (lineNumber : Nat)
    (testName : CString) : Except cuu_exception Unit :=
  cuu_assert_bool x false xText fileName lineNumber testName

/-! ## Test bodies and the world they run in -/

/-- A value thrown out of a test body, by its type: a `cuu_exception`, an
object of another class derived from `std::exception` (with the text that its
`what()` returns), or a value of any other type. -/
inductive Thrown (α : Type) where
  | cuu (e : cuu_exception)
  | std (what : CString)
  | other (v : α)
deriving DecidableEq

/-- The handler `catch (cuu_exception& e)`: the caught object, when the handler
matches. -/
def Thrown.catch_cuu_exception {α : Type} : Thrown α → Option cuu_exception
  | .cuu e => some e
  | .std _ => none
  | .other _ => none

/-- The handler `catch (std::exception& e)`: the text of `e.what()`, when the
handler matches. It matches a `cuu_exception` as well, which derives from
`std::exception`. -/
def Thrown.catch_std_exception {α : Type} : Thrown α → Option CString
  | .cuu _ => some std_exception_what
  | .std what => some what
  | .other _ => none

/-- How the execution of a test body ends. -/
inductive Outcome (α : Type) where
  | completes
  | raises (t : Thrown α)
deriving DecidableEq

/-- A class made by `TEST(suite, test)`, the `TESTCASECLASS` of a `TestRunner`:
its static `testName` and its constructor, which is the test body. The body is
deterministic and does not write to `std::cout` itself. -/
structure TestCase (α : Type) where
  testName : CString
  body : Outcome α
deriving DecidableEq

/-- The state that the harness acts on. `cout` is the text written to
`std::cout`. The other two fields are observation logs, which no function
reads: `constructed` lists the test cases whose constructor has been called,
and `reported` the exceptions handed to `TestResultCollector::addException`,
both in order of occurrence. -/
structure World (α : Type) where
  cout : StdString
  constructed : List (TestCase α)
  reported : List cuu_exception
deriving DecidableEq

/-- The result of a call that acts on the world: it returns, or an exception
leaves it. -/
inductive Result (α : Type) where
  | returned (w : World α)
  | raised (t : Thrown α) (w : World α)
deriving DecidableEq

/-- The statement `TESTCASECLASS instance;`, which runs the test body. -/
def TestCase.construct {α : Type} (tc : TestCase α) (w : World α) : Result α :=
  let w1 : World α := { w with constructed := w.constructed ++ [tc] }
  match tc.body with
  | .completes => .returned w1
  | .raises t => .raised t w1

/-! ## Collector, runner and registry -/

/-- The function `TestResultCollector::addException`:
`std::cout << e.what() << std::endl`. -/
def TestResultCollector.addException {α : Type} (e : cuu_exception) (w : World α) :
    World α :=
  { w with cout := w.cout ++ e.what.chars ++ [endl], reported := w.reported ++ [e] }

/-- The member `TestRunner::reportError(cuu_exception&)`. -/
def TestRunner.reportError {α : Type} (e : cuu_exception) (w : World α) : World α :=
  TestResultCollector.addException e w

/-- The member `TestRunner::reportError(const std::string&)`. -/
def TestRunner.reportError_description {α : Type} (tc : TestCase α)
    (description : StdString) (w : World α) : World α :=
  let message : StdString := description ++ " in ".toList ++ tc.testName.chars
  let cuu_e : cuu_exception := ⟨message⟩
  TestRunner.reportError cuu_e w

/-- The member `TestRunner<TESTCASECLASS>::run`: the handlers are tried in the
order in which they are written. -/
def TestRunner.run {α : Type} (tc : TestCase α) (w : World α) : Result α :=
  match tc.construct w with
  | .returned w1 => .returned w1
  | .raised t w1 =>
    match t.catch_cuu_exception with
    | some e => .returned (TestRunner.reportError e w1)
    | none =>
      match t.catch_std_exception with
      | some what =>
        .returned (TestRunner.reportError_description tc
          ("Caught exception: ".toList ++ what.chars) w1)
      | none =>
        .returned (TestRunner.reportError_description tc
          "Caught unknown exception".toList w1)

/-- The abstract class `Runner`, with its virtual `run`. -/
structure Runner (α : Type) where
  run : World α → Result α

/-- A `TestRunner<TESTCASECLASS>` object seen as a `Runner`. -/
def TestRunner.toRunner {α : Type} (tc : TestCase α) : Runner α := ⟨TestRunner.run tc⟩

/-- The function `run_runner`. -/
def run_runner {α : Type} (runner : Runner α) (w : World α) : Result α := runner.run w

/-- The algorithm `std::for_each` over a list: `f` is applied to the elements
from first to last, and an exception that leaves `f` ends the loop. -/
def for_each {α : Type} (runners : List (Runner α)) (f : Runner α → World α → Result α)
    (w : World α) : Result α :=
  match runners with
  | [] => .returned w
  | r :: rest =>
    match f r w with
    | .returned w1 => for_each rest f w1
    | .raised t w1 => .raised t w1

/-- The class `TestRegistry`: the list `runners`. -/
structure TestRegistry (α : Type) where
  runners : List (Runner α)

/-- The function `TestRegistry::addRunner`. -/
def TestRegistry.addRunner {α : Type} (reg : TestRegistry α) (runner : Runner α) :
    TestRegistry α :=
  ⟨reg.runners ++ [runner]⟩

/-- The function `TestRegistry::runAll`. -/
def TestRegistry.runAll {α : Type} (reg : TestRegistry α) (w : World α) : Result α :=
  for_each reg.runners run_runner w

/-! ## Reference definitions for the statements -/

/-- The world that a result carries. -/
def Result.world {α : Type} : Result α → World α
  | .returned w => w
  | .raised _ w => w

/-- Whether an outcome is a raise. -/
def Outcome.isRaise {α : Type} : Outcome α → Bool
  | .completes => false
  | .raises _ => true

/-- The failure that one run of a test case is expected to report: none when
the body completes, and otherwise one, which is the thrown failure itself or a
failure that wraps the error with the label of the test. -/
def expectedFailure {α : Type} (tc : TestCase α) : Option cuu_exception :=
  match tc.body with
  | .completes => none
  | .raises (.cuu e) => some e
  | .raises (.std what) =>
    some ⟨"Caught exception: ".toList ++ what.chars ++ " in ".toList ++ tc.testName.chars⟩
  | .raises (.other _) =>
    some ⟨"Caught unknown exception in ".toList ++ tc.testName.chars⟩

/-- The line that the sink receives for a reported failure: the text of the
failure followed by one line terminator. -/
def reportLine (e : cuu_exception) : StdString := e.what.chars ++ [endl]

/-! ## The null assertions -/

/-- What `ASSERT_NULL` and `ASSERT_NOT_NULL` use of the type of `x`: the
comparisons `(x) == 0` and `(x) != 0` with the null sentinel, of which the
second is the negation of the first, as it is for every pointer and arithmetic
type. -/
structure NullComparable (T : Type) where
  eq0 : T → Bool
  ne0 : T → Bool
  ne0_eq : ∀ x : T, ne0 x = !eq0 x

/-- The stringified argument that `ASSERT_TRUE` gets from `ASSERT_NULL(x)`:
`(x) == 0`, with the text of `x` in it. -/
def ASSERT_NULL_text (xText : CString) : CString :=
  ⟨"(".toList ++ xText.chars ++ ") == 0".toList, by
    simp only [List.mem_append, not_or]
    exact ⟨⟨by decide, xText.nul_free⟩, by decide⟩⟩

/-- The stringified argument that `ASSERT_TRUE` gets from `ASSERT_NOT_NULL(x)`:
`(x) != 0`, with the text of `x` in it. -/
def ASSERT_NOT_NULL_text (xText : CString) : CString :=
  ⟨"(".toList ++ xText.chars ++ ") != 0".toList, by
    simp only [List.mem_append, not_or]
    exact ⟨⟨by decide, xText.nul_free⟩, by decide⟩⟩

/-- The macro `ASSERT_NULL(x)`, which is `ASSERT_TRUE((x) == 0)`. -/
def ASSERT_NULL {T : Type} (Z : NullComparable T) (x : T) (xText : CString)
    (fileName : CString) (lineNumber : Nat) (testName : CString) :
    Except cuu_exception Unit :=
  ASSERT_TRUE (Z.eq0 x) (ASSERT_NULL_text xText) fileName lineNumber testName

/-- The macro `ASSERT_NOT_NULL(x)`, which is `ASSERT_TRUE((x) != 0)`. -/
def ASSERT_NOT_NULL {T : Type} (Z : NullComparable T) (x : T) (xText : CString)
    (fileName : CString) (lineNumber : Nat) (testName : CString) :
    Except cuu_exception Unit :=
  ASSERT_TRUE (Z.ne0 x) (ASSERT_NOT_NULL_text xText) fileName lineNumber testName

/-! ## Test bodies made of assertions -/

/-- One assertion statement of a test body: a call of `cuu_assert_equal` (the
template or the overload for C strings), of `cuu_assert_bool` or of `cuu_fail`,
with its arguments apart from the file and the label, which are those of the
test. -/
inductive Assertion : Type 1 where
  | equal (T : Type) (V : ValueType T) (expected actual : T) (lineNumber : Nat)
  | equal_c_str (expected actual : CString) (lineNumber : Nat)
  | bool (boolToCheck sense : Bool) (boolToCheckText : CString) (lineNumber : Nat)
  | fail (message : CString) (lineNumber : Nat)

/-- The call that an assertion statement makes. -/
def Assertion.call (fileName testName : CString) : Assertion → Except cuu_exception Unit
  | .equal _ V expected actual lineNumber =>
    cuu_assert_equal V expected actual fileName lineNumber testName
  | .equal_c_str expected actual lineNumber =>
    cuu_assert_equal_c_str expected actual fileName lineNumber testName
  | .bool boolToCheck sense boolToCheckText lineNumber =>
    cuu_assert_bool boolToCheck sense boolToCheckText fileName lineNumber testName
  | .fail message lineNumber => cuu_fail message fileName lineNumber testName

/-- The execution of a body that is a sequence of assertion statements: the
statements are called in order, and an exception that leaves a call leaves the
body. The first component counts the statements that have been called. -/
def execAssertions (fileName testName : CString) :
    List Assertion → Nat × Except cuu_exception Unit
  | [] => (0, .ok ())
  | a :: rest =>
    match a.call fileName testName with
    | .ok _ => ((execAssertions fileName testName rest).1 + 1,
        (execAssertions fileName testName rest).2)
    | .error e => (1, .error e)

/-- The outcome of a body that ends as an assertion call does. -/
def Outcome.ofExcept {α : Type} : Except cuu_exception Unit → Outcome α
  | .ok _ => .completes
  | .error e => .raises (.cuu e)

/-- The test case whose body is a sequence of assertion statements. -/
def TestCase.ofAssertions {α : Type} (fileName testName : CString)
    (statements : List Assertion) : TestCase α :=
  ⟨testName, Outcome.ofExcept (execAssertions fileName testName statements).2⟩

/-! ## Declaration, registration and entry point -/

/-- The value that `TEST(suite, test)` gives the static `testName`: the literal
`"[test <" #test "> in suite <" #suite ">]"`. -/
def TEST_testName (suite test : CString) : CString :=
  ⟨"[test <".toList ++ test.chars ++ "> in suite <".toList ++ suite.chars ++ ">]".toList, by
    simp only [List.mem_append, not_or]
    exact ⟨⟨⟨⟨by decide, test.nul_free⟩, by decide⟩, suite.nul_free⟩, by decide⟩⟩

/-- The class that `TEST(suite, test)` declares, with the body that follows
the macro as its constructor. -/
def TEST {α : Type} (suite test : CString) (body : Outcome α) : TestCase α :=
  ⟨TEST_testName suite test, body⟩

/-- The registry that `TestRegistry::instance()` holds when it is first
called: `static TestRegistry it;` with an empty list. -/
def TestRegistry.initial (α : Type) : TestRegistry α := ⟨[]⟩

/-- The constructor of `TestRegistrar<TESTRUNNER>`, which calls
`TestRegistry::addRunner(new TESTRUNNER)`. -/
def TestRegistrar.construct {α : Type} (runner : Runner α) (reg : TestRegistry α) :
    TestRegistry α :=
  reg.addRunner runner

/-- The state of the process: the registry and the world. -/
structure Process (α : Type) where
  registry : TestRegistry α
  world : World α

/-- The process before any registrar has been constructed. -/
def Process.initial (α : Type) : Process α := ⟨TestRegistry.initial α, ⟨[], [], []⟩⟩

/-- An operation on the registry: the construction of a registrar, or a call
of `TestRegistry::runAll`. -/
inductive Operation (α : Type) where
  | registrar (runner : Runner α)
  | runAll

/-- The effect of one operation on the process. -/
def Process.step {α : Type} (p : Process α) : Operation α → Process α
  | .registrar runner => { p with registry := TestRegistrar.construct runner p.registry }
  | .runAll => { p with world := (p.registry.runAll p.world).world }

/-- The effect of a sequence of operations, from first to last. -/
def Process.steps {α : Type} (p : Process α) (ops : List (Operation α)) : Process α :=
  ops.foldl Process.step p

/-- The runner that an operation registers, if it registers one. -/
def Operation.registered {α : Type} : Operation α → Option (Runner α)
  | .registrar runner => some runner
  | .runAll => none

/-- The function `main`: the exit status, when `main` returns one, and the
world it leaves. An exception that leaves `runAll` would leave `main` without a
status. -/
def main {α : Type} (reg : TestRegistry α) (w : World α) : Option Int × World α :=
  match reg.runAll w with
  | .returned w1 => (some 0, w1)
  | .raised _ w1 => (none, w1)

/-- One call after another: the second acts on the world that the first leaves,
unless an exception left the first. -/
def Result.andThen {α : Type} (r : Result α) (f : World α → Result α) : Result α :=
  match r with
  | .returned w => f w
  | .raised t w => .raised t w

/-! ## Sample values -/

/-- A file name, as `__FILE__` gives it. -/
def sampleFile : CString := ⟨"t.cpp".toList, by decide⟩

/-- A label, as `TEST(Math, adds)` gives it. -/
def sampleLabel : CString := ⟨"[test <adds> in suite <Math>]".toList, by decide⟩

/-- An expression text, as `#x` gives it. -/
def sampleText : CString := ⟨"n > 0".toList, by decide⟩

/-- The type `char`: `operator==` compares the values and `operator<<` writes
the character. -/
def charValue : ValueType Char := ⟨fun a b => a == b, fun c => [c]⟩

/-- The type `unsigned long`: `operator==` compares the values and `operator<<`
writes the decimal digits. -/
def unsignedValue : ValueType Nat := ⟨fun a b => a == b, decimal⟩

/-- The message of the failure that an assertion raised, if it raised one. -/
def raisedMessage : Except cuu_exception Unit → Option StdString
  | .ok _ => none
  | .error e => some e.message

/-- A pointer, by its address; the null pointer has address 0. -/
def pointerValue : NullComparable Nat := ⟨fun p => p == 0, fun p => p != 0, fun _ => rfl⟩

/-- A suite name, as the first argument of `TEST`. -/
def sampleSuite : CString := ⟨"Math".toList, by decide⟩

/-- A test name, as the second argument of `TEST`. -/
def sampleTest : CString := ⟨"adds".toList, by decide⟩

/-- The number that a string of decimal digits stands for. -/
def decimalValue (digits : List Char) : Nat :=
  digits.foldl (fun acc c => 10 * acc + (c.toNat - 48)) 0

/-- The world before anything has run. -/
def emptyWorld (α : Type) : World α := ⟨[], [], []⟩

/-- A test case that throws a `cuu_exception` whose message has a NUL in it, as
a body with `throw cuu_exception(std::string("a\0b", 3))` does. -/
def nulFailureCase : TestCase Unit :=
  ⟨sampleLabel, .raises (.cuu ⟨['a', NUL, 'b']⟩)⟩

/-- A text cut in front of its first NUL character. -/
def truncateAtNUL (s : StdString) : StdString := s.takeWhile (fun c => c != NUL)

/-- A body of three assertion statements, of which the second is violated:
`ASSERT_TRUE(n > 0)` with a true condition, `FAIL("boom")`, `FAIL("later")`. -/
def sampleStatements : List Assertion :=
  [.bool true true sampleText 12, .fail ⟨"boom".toList, by decide⟩ 13,
    .fail ⟨"later".toList, by decide⟩ 14]

/-- The text that running a list of test runners writes, from the empty
world. -/
def written {α : Type} (tcs : List (TestCase α)) : StdString :=
  (TestRegistry.runAll ⟨tcs.map TestRunner.toRunner⟩ (emptyWorld α)).world.cout

/-! ## Lemmas on strings -/

theorem c_str_chars_of_nul_free (s : StdString) (h : NUL ∉ s) : (c_str s).chars = s := by
  unfold c_str
  simp only
  rw [List.takeWhile_eq_self_iff]
  intro c hc
  have : c ≠ NUL := fun e => h (e ▸ hc)
  simpa using this

theorem c_str_chars (s : CString) : (c_str s.chars).chars = s.chars :=
  c_str_chars_of_nul_free s.chars s.nul_free

theorem digitChar_ne_NUL (k : Nat) : Nat.digitChar k ≠ NUL := by
  by_cases h : k < 17
  · interval_cases k <;> decide
  · have e : Nat.digitChar k = Char.ofNat 42 := by
      unfold Nat.digitChar
      repeat (rw [if_neg (by omega)])
    rw [e]; decide

theorem toDigitsCore_nul_free (b fuel : Nat) : ∀ (n : Nat) (ds : List Char),
    NUL ∉ ds → NUL ∉ Nat.toDigitsCore b fuel n ds := by
  induction fuel with
  | zero => intro n ds h; simpa [Nat.toDigitsCore] using h
  | succ f ih =>
    intro n ds h
    simp only [Nat.toDigitsCore]
    have h2 : NUL ∉ Nat.digitChar (n % b) :: ds := by
      simp only [List.mem_cons, not_or]
      exact ⟨fun e => digitChar_ne_NUL _ e.symm, h⟩
    split
    · exact h2
    · exact ih _ _ h2

theorem decimal_nul_free (n : Nat) : NUL ∉ decimal n :=
  toDigitsCore_nul_free 10 (n + 1) n [] (by simp)

theorem cuu_error_location_nul_free (fileName : CString) (lineNumber : Nat)
    (testName : CString) : NUL ∉ cuu_error_location fileName lineNumber testName := by
  unfold cuu_error_location
  simp only [List.mem_append, not_or]
  exact ⟨⟨⟨⟨⟨fileName.nul_free, by decide⟩, decimal_nul_free _⟩, by decide⟩,
    testName.nul_free⟩, by decide⟩

theorem cuu_condition_text_nul_free (value : Bool) : NUL ∉ cuu_condition_text value := by
  cases value <;> decide

theorem strcmp_chars_eq_zero_iff : ∀ a b : List Char, strcmp_chars a b = 0 ↔ a = b
  | [], [] => by simp [strcmp_chars]
  | [], _ :: _ => by simp [strcmp_chars]
  | _ :: _, [] => by simp [strcmp_chars]
  | a :: as, b :: bs => by
    unfold strcmp_chars
    by_cases h : a = b
    · simp [h, strcmp_chars_eq_zero_iff as bs]
    · simp only [h, if_false, List.cons.injEq, false_and, iff_false]
      split <;> decide

theorem cuu_bool_error_message_nul_free (fileName : CString) (lineNumber : Nat)
    (testName boolToCheckText : CString) (boolToCheck : Bool) :
    NUL ∉ cuu_bool_error_message fileName lineNumber testName boolToCheckText
      boolToCheck := by
  unfold cuu_bool_error_message
  simp only [List.mem_append, not_or]
  exact ⟨⟨⟨⟨cuu_error_location_nul_free _ _ _, by decide⟩, boolToCheckText.nul_free⟩,
    by decide⟩, cuu_condition_text_nul_free _⟩

theorem cuu_equals_error_message_nul_free {T : Type} (print : T → StdString)
    (fileName : CString) (lineNumber : Nat) (testName : CString) (expected actual : T)
    (he : NUL ∉ print expected) (ha : NUL ∉ print actual) :
    NUL ∉ cuu_equals_error_message print fileName lineNumber testName expected actual := by
  unfold cuu_equals_error_message
  simp only [List.mem_append, not_or]
  exact ⟨⟨⟨⟨⟨cuu_error_location_nul_free _ _ _, by decide⟩, he⟩, by decide⟩, ha⟩,
    by decide⟩

/-! ## Lemmas on the runner -/

theorem reportLine_of_nul_free (m : StdString) (h : NUL ∉ m) :
    reportLine ⟨m⟩ = m ++ [endl] := by
  unfold reportLine cuu_exception.what
  rw [c_str_chars_of_nul_free m h]

theorem run_eq {α : Type} (tc : TestCase α) (w : World α) :
    TestRunner.run tc w = .returned
      { cout := w.cout ++ ((expectedFailure tc).toList.map reportLine).flatten
        constructed := w.constructed ++ [tc]
        reported := w.reported ++ (expectedFailure tc).toList } := by
  obtain ⟨name, body⟩ := tc
  cases body with
  | completes =>
    simp [TestRunner.run, TestCase.construct, expectedFailure]
  | raises t =>
    cases t <;>
      simp [TestRunner.run, TestCase.construct, expectedFailure, reportLine,
        Thrown.catch_cuu_exception, Thrown.catch_std_exception, TestRunner.reportError,
        TestRunner.reportError_description, TestResultCollector.addException]

theorem for_each_testRunners {α : Type} (tcs : List (TestCase α)) : ∀ w : World α,
    for_each (tcs.map TestRunner.toRunner) run_runner w = .returned
      { cout := w.cout ++ ((tcs.filterMap expectedFailure).map reportLine).flatten
        constructed := w.constructed ++ tcs
        reported := w.reported ++ tcs.filterMap expectedFailure } := by
  induction tcs with
  | nil => intro w; simp [for_each]
  | cons tc rest ih =>
    intro w
    simp only [List.map_cons, for_each, run_runner, TestRunner.toRunner, run_eq]
    have := ih { cout := w.cout ++ ((expectedFailure tc).toList.map reportLine).flatten
                 constructed := w.constructed ++ [tc]
                 reported := w.reported ++ (expectedFailure tc).toList }
    simp only [run_runner] at this
    rw [this]
    cases h : expectedFailure tc <;> simp [List.filterMap_cons, h]

/-! ## The runner and the registry -/

/-- C1: for every registry of N test runners and every assignment of outcomes
to their bodies, `TestRegistry::runAll` returns normally, has constructed (so
run the body of) every test case exactly once and in registration order, has
handed to the collector exactly the failures of the runners whose body raised,
in order, and has written to the sink the concatenation of their report lines;
a runner has a failure to report exactly when its body raised. -/
theorem runAll_runs_every_runner_once_in_order {α : Type} (tcs : List (TestCase α))
    (w : World α) :
    TestRegistry.runAll ⟨tcs.map TestRunner.toRunner⟩ w = .returned
      { cout := w.cout ++ ((tcs.filterMap expectedFailure).map reportLine).flatten
        constructed := w.constructed ++ tcs
        reported := w.reported ++ tcs.filterMap expectedFailure }
    ∧ ∀ tc : TestCase α, (expectedFailure tc).isSome = tc.body.isRaise := by
  refine ⟨for_each_testRunners tcs w, ?_⟩
  intro tc
  obtain ⟨name, body⟩ := tc
  cases body with
  | completes => rfl
  | raises t => cases t <;> rfl

/-- The example of C1: of the runners A (passes), B (raises a failure) and C
(passes), all three are run in this order and the sink receives the report of
B only. -/
theorem runAll_pass_fail_pass :
    TestRegistry.runAll
      ⟨[TestRunner.toRunner (⟨sampleFile, .completes⟩ : TestCase Unit),
        TestRunner.toRunner ⟨sampleLabel, .raises (.cuu ⟨"boom".toList⟩)⟩,
        TestRunner.toRunner ⟨sampleFile, .completes⟩]⟩ (emptyWorld Unit)
      = .returned
        { cout := "boom".toList ++ [endl]
          constructed := [⟨sampleFile, .completes⟩,
            ⟨sampleLabel, .raises (.cuu ⟨"boom".toList⟩)⟩, ⟨sampleFile, .completes⟩]
          reported := [⟨"boom".toList⟩] } := by
  decide

/-- C2: whatever the outcome of the test body (it completes, or it raises a
`cuu_exception`, another `std::exception`, or any other value),
`TestRunner::run` returns normally: no exception leaves it. -/
theorem run_returns_normally {α : Type} (tc : TestCase α) (w : World α) :
    ∃ w1 : World α, TestRunner.run tc w = .returned w1 :=
  ⟨_, run_eq tc w⟩

/-- C3, as stated, fails: for a failure whose message is `a`, NUL, `b` the sink
receives `a` and the line terminator, not the message and the line
terminator. -/
theorem run_failure_with_NUL_is_cut :
    (TestRunner.run nulFailureCase (emptyWorld Unit)).world.cout = ['a', endl]
    ∧ (TestRunner.run nulFailureCase (emptyWorld Unit)).world.cout
        ≠ ['a', NUL, 'b'] ++ [endl] := by
  decide

/-- C3, amended: when the body raises a failure with message `m`, the sink
receives the characters of `m` before its first NUL, followed by one line
terminator, and nothing else (no text before it, no label, no wrapping), and
the collector is handed that failure unchanged; for a message without NUL, as
a C string is, this is exactly the message followed by the line terminator;
and when the body completes, nothing is written and nothing reported. -/
theorem run_forwards_failure {α : Type} (m : StdString) (L : CString) (w : World α) :
    TestRunner.run ⟨L, .raises (.cuu ⟨m⟩)⟩ w = .returned
      { cout := w.cout ++ m.takeWhile (fun c => c != NUL) ++ [endl]
        constructed := w.constructed ++ [⟨L, .raises (.cuu ⟨m⟩)⟩]
        reported := w.reported ++ [⟨m⟩] }
    ∧ (∀ s : CString, TestRunner.run ⟨L, .raises (.cuu ⟨s.toStdString⟩)⟩ w = .returned
      { cout := w.cout ++ s.chars ++ [endl]
        constructed := w.constructed ++ [⟨L, .raises (.cuu ⟨s.toStdString⟩)⟩]
        reported := w.reported ++ [⟨s.chars⟩] })
    ∧ TestRunner.run ⟨L, .completes⟩ w = .returned
      { cout := w.cout
        constructed := w.constructed ++ [⟨L, .completes⟩]
        reported := w.reported } := by
  refine ⟨?_, ?_, ?_⟩
  · simp [run_eq, expectedFailure, reportLine, cuu_exception.what, c_str]
  · intro s
    simp [run_eq, expectedFailure, reportLine, cuu_exception.what, CString.toStdString,
      c_str_chars]
  · simp [run_eq, expectedFailure]

/-- C4: when the body raises a `std::exception` that is no `cuu_exception`,
with description `d`, in a test with label `L`, `TestRunner::run` reports
exactly one failure, whose message is `"Caught exception: " ++ d ++ " in " ++ L`
(the sink receives it with a line terminator), and returns normally. -/
theorem run_wraps_std_exception {α : Type} (d L : CString) (w : World α) :
    TestRunner.run ⟨L, .raises (.std d)⟩ w = .returned
      { cout := w.cout ++ "Caught exception: ".toList ++ d.chars ++ " in ".toList
          ++ L.chars ++ [endl]
        constructed := w.constructed ++ [⟨L, .raises (.std d)⟩]
        reported := w.reported
          ++ [⟨"Caught exception: ".toList ++ d.chars ++ " in ".toList ++ L.chars⟩] } := by
  have h : NUL ∉ "Caught exception: ".toList ++ d.chars ++ " in ".toList ++ L.chars := by
    simp only [List.mem_append, not_or]
    exact ⟨⟨⟨by decide, d.nul_free⟩, by decide⟩, L.nul_free⟩
  rw [run_eq]
  have e : expectedFailure (⟨L, .raises (.std d)⟩ : TestCase α)
      = some ⟨"Caught exception: ".toList ++ d.chars ++ " in ".toList ++ L.chars⟩ := rfl
  rw [e]
  simp only [Option.toList, List.map_cons, List.map_nil, List.flatten_cons,
    List.flatten_nil, List.append_nil, reportLine_of_nul_free _ h]
  simp only [List.append_assoc]

/-- C5: when the body raises a value that is neither a `cuu_exception` nor a
`std::exception`, in a test with label `L`, `TestRunner::run` yields exactly
one report, `"Caught unknown exception in " ++ L`, in which the raised value
does not occur, and `runAll` goes on with the runners that follow. -/
theorem run_reports_unknown_exception {α : Type} (v : α) (L : CString) (w : World α)
    (rest : List (Runner α)) :
    TestRunner.run ⟨L, .raises (.other v)⟩ w = .returned
      { cout := w.cout ++ "Caught unknown exception in ".toList ++ L.chars ++ [endl]
        constructed := w.constructed ++ [⟨L, .raises (.other v)⟩]
        reported := w.reported ++ [⟨"Caught unknown exception in ".toList ++ L.chars⟩] }
    ∧ TestRegistry.runAll ⟨TestRunner.toRunner ⟨L, .raises (.other v)⟩ :: rest⟩ w
      = TestRegistry.runAll ⟨rest⟩
        { cout := w.cout ++ "Caught unknown exception in ".toList ++ L.chars ++ [endl]
          constructed := w.constructed ++ [⟨L, .raises (.other v)⟩]
          reported := w.reported ++ [⟨"Caught unknown exception in ".toList ++ L.chars⟩] } := by
  have h : NUL ∉ "Caught unknown exception in ".toList ++ L.chars := by
    simp only [List.mem_append, not_or]
    exact ⟨by decide, L.nul_free⟩
  have e : TestRunner.run ⟨L, .raises (.other v)⟩ w = .returned
      { cout := w.cout ++ "Caught unknown exception in ".toList ++ L.chars ++ [endl]
        constructed := w.constructed ++ [⟨L, .raises (.other v)⟩]
        reported := w.reported ++ [⟨"Caught unknown exception in ".toList ++ L.chars⟩] } := by
    rw [run_eq]
    have e1 : expectedFailure (⟨L, .raises (.other v)⟩ : TestCase α)
        = some ⟨"Caught unknown exception in ".toList ++ L.chars⟩ := rfl
    rw [e1]
    simp only [Option.toList, List.map_cons, List.map_nil, List.flatten_cons,
      List.flatten_nil, List.append_nil, reportLine_of_nul_free _ h, List.append_assoc]
  refine ⟨e, ?_⟩
  simp only [TestRegistry.runAll, for_each, run_runner, TestRunner.toRunner, e]

/-! ## The assertions -/

/-- C6: for every value type with `operator==`, the template `cuu_assert_equal`
returns normally (and, being a function of its arguments only, has no effect)
if and only if `expected == actual`, and raises a failure, a single one, if and
only if not; so for equal values it raises nothing. -/
theorem cuu_assert_equal_returns_iff_equal {T : Type} (V : ValueType T)
    (expected actual : T) (fileName : CString) (lineNumber : Nat) (testName : CString) :
    (cuu_assert_equal V expected actual fileName lineNumber testName = .ok ()
      ↔ V.eq expected actual = true)
    ∧ ((∃ e : cuu_exception,
        cuu_assert_equal V expected actual fileName lineNumber testName = .error e)
      ↔ V.eq expected actual = false) := by
  unfold cuu_assert_equal
  cases h : V.eq expected actual <;> simp

/-- C7, as stated, fails: for the `char` values NUL and `x`, which are unequal,
the message of the failure stops in front of the NUL that prints for the
expected value, and so is not the whole formatted text. -/
theorem cuu_assert_equal_message_cut_at_NUL :
    raisedMessage (cuu_assert_equal charValue NUL 'x' sampleFile 12 sampleLabel)
      = some "t.cpp:12: [test <adds> in suite <Math>] expected: <".toList
    ∧ raisedMessage (cuu_assert_equal charValue NUL 'x' sampleFile 12 sampleLabel)
      ≠ some (sampleFile.chars ++ ":".toList ++ decimal 12 ++ ": ".toList
          ++ sampleLabel.chars ++ " ".toList ++ "expected: <".toList ++ charValue.print NUL
          ++ "> but was: <".toList ++ charValue.print 'x' ++ ">".toList) := by
  decide

/-- C7, amended: for every printable value type and every unequal pair, the
failure that `cuu_assert_equal` raises carries the characters in front of the
first NUL of the text `file ++ ":" ++ line ++ ": " ++ label ++ " expected: <" ++
print(a) ++ "> but was: <" ++ print(b) ++ ">"`; when neither printed form holds
a NUL, the message is exactly that text, with a single space between the label
and `expected:`. -/
theorem cuu_assert_equal_message {T : Type} (V : ValueType T) (expected actual : T)
    (fileName : CString) (lineNumber : Nat) (testName : CString)
    (hne : V.eq expected actual = false) :
    cuu_assert_equal V expected actual fileName lineNumber testName
      = .error ⟨(fileName.chars ++ ":".toList ++ decimal lineNumber ++ ": ".toList
          ++ testName.chars ++ " ".toList ++ "expected: <".toList ++ V.print expected
          ++ "> but was: <".toList ++ V.print actual ++ ">".toList).takeWhile
            (fun c => c != NUL)⟩
    ∧ (NUL ∉ V.print expected → NUL ∉ V.print actual →
      cuu_assert_equal V expected actual fileName lineNumber testName
        = .error ⟨fileName.chars ++ ":".toList ++ decimal lineNumber ++ ": ".toList
          ++ testName.chars ++ " ".toList ++ "expected: <".toList ++ V.print expected
          ++ "> but was: <".toList ++ V.print actual ++ ">".toList⟩) := by
  refine ⟨?_, ?_⟩
  · simp only [cuu_assert_equal, hne, Bool.false_eq_true, if_false]
    rfl
  · intro he ha
    have h := cuu_equals_error_message_nul_free V.print fileName lineNumber testName
      expected actual he ha
    simp only [cuu_assert_equal, hne, Bool.false_eq_true, if_false, CString.toStdString,
      c_str_chars_of_nul_free _ h]
    rfl

/-- The amended C7 at `unsigned long` values 3 and 4. -/
theorem cuu_assert_equal_message_witness :
    unsignedValue.eq 3 4 = false
    ∧ cuu_assert_equal unsignedValue 3 4 sampleFile 12 sampleLabel
      = .error ⟨"t.cpp:12: [test <adds> in suite <Math>] expected: <3> but was: <4>".toList⟩ :=
  ⟨rfl, (cuu_assert_equal_message unsignedValue 3 4 sampleFile 12 sampleLabel rfl).2
    (by decide) (by decide)⟩

/-- C8: the overload of `cuu_assert_equal` for C strings compares the contents:
it returns normally if and only if the two strings are the same sequence of
characters, and it raises, if and only if they are not, the failure whose
message is the equals-message of the two contents. -/
theorem cuu_assert_equal_c_str_compares_content (expected actual : CString)
    (fileName : CString) (lineNumber : Nat) (testName : CString) :
    (cuu_assert_equal_c_str expected actual fileName lineNumber testName = .ok ()
      ↔ expected.chars = actual.chars)
    ∧ (cuu_assert_equal_c_str expected actual fileName lineNumber testName
        = .error ⟨fileName.chars ++ ":".toList ++ decimal lineNumber ++ ": ".toList
          ++ testName.chars ++ " ".toList ++ "expected: <".toList ++ expected.chars
          ++ "> but was: <".toList ++ actual.chars ++ ">".toList⟩
      ↔ expected.chars ≠ actual.chars) := by
  have h := cuu_equals_error_message_nul_free CString.chars fileName lineNumber testName
    expected actual expected.nul_free actual.nul_free
  unfold cuu_assert_equal_c_str
  by_cases e : expected.chars = actual.chars
  · have z : strcmp expected actual = 0 := (strcmp_chars_eq_zero_iff _ _).2 e
    simp [z, e]
  · have z : ¬ strcmp expected actual = 0 := fun z => e ((strcmp_chars_eq_zero_iff _ _).1 z)
    simp only [z, if_false, CString.toStdString, c_str_chars_of_nul_free _ h, e,
      iff_false, not_false_eq_true, iff_true, ne_eq, reduceCtorEq]
    exact ⟨trivial, rfl⟩

/-- C9: `cuu_assert_bool` raises a failure if and only if the observed value
differs from the expected sense, and returns normally (with no effect) if and
only if they agree; so `ASSERT_TRUE(x)` raises iff `x` is false and
`ASSERT_FALSE(x)` raises iff `x` is true. -/
theorem cuu_assert_bool_raises_iff (observed expectedSense : Bool) (text : CString)
    (fileName : CString) (lineNumber : Nat) (testName : CString) :
    ((∃ e : cuu_exception,
        cuu_assert_bool observed expectedSense text fileName lineNumber testName = .error e)
      ↔ observed ≠ expectedSense)
    ∧ (cuu_assert_bool observed expectedSense text fileName lineNumber testName = .ok ()
      ↔ observed = expectedSense)
    ∧ ((∃ e : cuu_exception, ASSERT_TRUE observed text fileName lineNumber testName = .error e)
      ↔ observed = false)
    ∧ ((∃ e : cuu_exception, ASSERT_FALSE observed text fileName lineNumber testName = .error e)
      ↔ observed = true) := by
  unfold ASSERT_TRUE ASSERT_FALSE cuu_assert_bool
  cases observed <;> cases expectedSense <;> simp

/-- C10: when `cuu_assert_bool` raises, the message of the failure is
`location(file, line, label) ++ "expected: " ++ text ++ " to be " ++ w`, where
`w` is the word `true` or `false` for the negation of the observed value, and
this word is the word for the expected sense; so the message of a failed
`ASSERT_TRUE` ends in `to be true` and that of a failed `ASSERT_FALSE` in
`to be false`. -/
theorem cuu_assert_bool_message (observed expectedSense : Bool) (text : CString)
    (fileName : CString) (lineNumber : Nat) (testName : CString)
    (h : observed ≠ expectedSense) :
    cuu_assert_bool observed expectedSense text fileName lineNumber testName
      = .error ⟨cuu_error_location fileName lineNumber testName ++ "expected: ".toList
          ++ text.chars ++ " to be ".toList
          ++ (if !observed then "true".toList else "false".toList)⟩
    ∧ (if !observed then "true".toList else "false".toList)
      = (if expectedSense then "true".toList else "false".toList)
    ∧ ASSERT_TRUE false text fileName lineNumber testName
      = .error ⟨cuu_error_location fileName lineNumber testName ++ "expected: ".toList
          ++ text.chars ++ " to be true".toList⟩
    ∧ ASSERT_FALSE true text fileName lineNumber testName
      = .error ⟨cuu_error_location fileName lineNumber testName ++ "expected: ".toList
          ++ text.chars ++ " to be false".toList⟩ := by
  have hm := fun b => cuu_bool_error_message_nul_free fileName lineNumber testName text b
  refine ⟨?_, ?_, ?_, ?_⟩
  · simp only [cuu_assert_bool, h, if_false, CString.toStdString,
      c_str_chars_of_nul_free _ (hm observed)]
    rfl
  · cases observed <;> cases expectedSense <;> simp at h ⊢
  · simp only [ASSERT_TRUE, cuu_assert_bool, Bool.false_eq_true, if_false,
      CString.toStdString, c_str_chars_of_nul_free _ (hm false)]
    simp [cuu_bool_error_message, cuu_condition_text]
  · simp only [ASSERT_FALSE, cuu_assert_bool, Bool.true_eq_false, if_false,
      CString.toStdString, c_str_chars_of_nul_free _ (hm true)]
    simp [cuu_bool_error_message, cuu_condition_text]

/-- C10 at a failed `ASSERT_TRUE`: the message ends in `to be true`. -/
theorem cuu_assert_bool_message_witness :
    false ≠ true
    ∧ ASSERT_TRUE false sampleText sampleFile 12 sampleLabel
      = .error ⟨"t.cpp:12: [test <adds> in suite <Math>] expected: n > 0 to be true".toList⟩ :=
  ⟨by decide,
    (cuu_assert_bool_message false true sampleText sampleFile 12 sampleLabel (by decide)).1⟩

/-! ## Lemmas on the decimal rendering -/

theorem toDigitsCore_append (b fuel : Nat) : ∀ (n : Nat) (ds : List Char),
    Nat.toDigitsCore b fuel n ds = Nat.toDigitsCore b fuel n [] ++ ds := by
  induction fuel with
  | zero => intro n ds; simp [Nat.toDigitsCore]
  | succ f ih =>
    intro n ds
    simp only [Nat.toDigitsCore]
    split
    · simp
    · rw [ih _ (_ :: ds), ih _ [_]]; simp

theorem toDigitsCore_step (n : Nat) : ∀ fuel : Nat, n < fuel →
    Nat.toDigitsCore 10 fuel n [] =
      if n < 10 then [Nat.digitChar n]
      else Nat.toDigitsCore 10 (n / 10 + 1) (n / 10) [] ++ [Nat.digitChar (n % 10)] := by
  induction n using Nat.strong_induction_on with
  | _ n ih =>
    intro fuel hf
    obtain ⟨f, rfl⟩ : ∃ f, fuel = f + 1 := ⟨fuel - 1, by omega⟩
    have unfolded : Nat.toDigitsCore 10 (f + 1) n [] =
        if n / 10 = 0 then [Nat.digitChar (n % 10)]
        else Nat.toDigitsCore 10 f (n / 10) [Nat.digitChar (n % 10)] := rfl
    rw [unfolded]
    by_cases h : n < 10
    · have h0 : n / 10 = 0 := by omega
      have h1 : n % 10 = n := by omega
      simp [h, h0, h1]
    · have h0 : ¬ n / 10 = 0 := by omega
      have hlt : n / 10 < n := by omega
      rw [if_neg h0, if_neg h, toDigitsCore_append,
        ih (n / 10) hlt f (by omega), ← ih (n / 10) hlt (n / 10 + 1) (by omega)]

theorem decimal_step (n : Nat) :
    decimal n = if n < 10 then [Nat.digitChar n]
      else decimal (n / 10) ++ [Nat.digitChar (n % 10)] :=
  toDigitsCore_step n (n + 1) (by omega)

theorem digitChar_toNat (d : Nat) (h : d < 10) : (Nat.digitChar d).toNat = 48 + d := by
  interval_cases d <;> rfl

theorem decimalValue_append (s : List Char) (c : Char) :
    decimalValue (s ++ [c]) = 10 * decimalValue s + (c.toNat - 48) := by
  simp [decimalValue, List.foldl_append]

theorem decimalValue_decimal (n : Nat) : decimalValue (decimal n) = n := by
  induction n using Nat.strong_induction_on with
  | _ n ih =>
    rw [decimal_step]
    by_cases h : n < 10
    · simp [h, decimalValue, digitChar_toNat n h]
    · simp only [h, if_false, decimalValue_append, ih (n / 10) (by omega),
        digitChar_toNat (n % 10) (by omega)]
      omega

theorem decimal_head (n : Nat) (h : n ≠ 0) : (decimal n).head? ≠ some (Char.ofNat 48) := by
  induction n using Nat.strong_induction_on with
  | _ n ih =>
    rw [decimal_step]
    by_cases h10 : n < 10
    · simp only [h10, if_true, List.head?_cons]
      interval_cases n
      · exact absurd rfl h
      all_goals decide
    · simp only [h10, if_false]
      have := ih (n / 10) (by omega) (by omega)
      cases hd : decimal (n / 10) with
      | nil =>
        rw [decimal_step] at hd
        split at hd <;> simp at hd
      | cons a as =>
        rw [hd] at this
        simpa using this

theorem digitChar_isDigit (d : Nat) (h : d < 10) : (Nat.digitChar d).isDigit = true := by
  interval_cases d <;> rfl

theorem decimal_isDigit (n : Nat) : ∀ c ∈ decimal n, c.isDigit = true := by
  induction n using Nat.strong_induction_on with
  | _ n ih =>
    rw [decimal_step]
    by_cases h : n < 10
    · simp only [h, if_true, List.mem_singleton]
      intro c hc
      rw [hc]
      exact digitChar_isDigit n h
    · simp only [h, if_false, List.mem_append, List.mem_singleton]
      intro c hc
      rcases hc with hc | hc
      · exact ih (n / 10) (by omega) c hc
      · rw [hc]
        exact digitChar_isDigit _ (by omega)

theorem cuu_fail_error_message_nul_free (fileName : CString) (lineNumber : Nat)
    (testName message : CString) :
    NUL ∉ cuu_fail_error_message fileName lineNumber testName message := by
  unfold cuu_fail_error_message
  simp only [List.mem_append, not_or]
  exact ⟨⟨cuu_error_location_nul_free _ _ _, by decide⟩, message.nul_free⟩

theorem raisedMessage_ASSERT_TRUE (x : Bool) (xText : CString) (fileName : CString)
    (lineNumber : Nat) (testName : CString) :
    raisedMessage (ASSERT_TRUE x xText fileName lineNumber testName)
      = (if x then none else some (cuu_error_location fileName lineNumber testName
          ++ "expected: ".toList ++ xText.chars ++ " to be true".toList)) := by
  have hm := cuu_bool_error_message_nul_free fileName lineNumber testName xText false
  cases x
  · simp only [ASSERT_TRUE, cuu_assert_bool, Bool.false_eq_true, if_false, raisedMessage,
      CString.toStdString, c_str_chars_of_nul_free _ hm]
    simp [cuu_bool_error_message, cuu_condition_text]
  · simp [ASSERT_TRUE, cuu_assert_bool, raisedMessage]

/-! ## The null assertions, `cuu_fail` and the location -/

/-- C11: `ASSERT_NULL(x)` raises a failure if and only if `x != 0`, and
`ASSERT_NOT_NULL(x)` if and only if `x == 0`; each is `ASSERT_TRUE` applied to
the comparison `(x) == 0`, respectively `(x) != 0`, and the message of the
failure has the form of `ASSERT_TRUE`, with the text of the comparison, and
ends in `to be true`. -/
theorem ASSERT_NULL_raises_iff {T : Type} (Z : NullComparable T) (x : T) (xText : CString)
    (fileName : CString) (lineNumber : Nat) (testName : CString) :
    ((∃ e : cuu_exception,
        ASSERT_NULL Z x xText fileName lineNumber testName = .error e) ↔ Z.ne0 x = true)
    ∧ ((∃ e : cuu_exception,
        ASSERT_NOT_NULL Z x xText fileName lineNumber testName = .error e) ↔ Z.eq0 x = true)
    ∧ (ASSERT_NULL Z x xText fileName lineNumber testName = .ok () ↔ Z.eq0 x = true)
    ∧ (ASSERT_NOT_NULL Z x xText fileName lineNumber testName = .ok () ↔ Z.ne0 x = true)
    ∧ ASSERT_NULL Z x xText fileName lineNumber testName
      = ASSERT_TRUE (Z.eq0 x) (ASSERT_NULL_text xText) fileName lineNumber testName
    ∧ ASSERT_NOT_NULL Z x xText fileName lineNumber testName
      = ASSERT_TRUE (Z.ne0 x) (ASSERT_NOT_NULL_text xText) fileName lineNumber testName
    ∧ raisedMessage (ASSERT_NULL Z x xText fileName lineNumber testName)
      = (if Z.eq0 x then none else some (cuu_error_location fileName lineNumber testName
          ++ "expected: (".toList ++ xText.chars ++ ") == 0 to be true".toList))
    ∧ raisedMessage (ASSERT_NOT_NULL Z x xText fileName lineNumber testName)
      = (if Z.ne0 x then none else some (cuu_error_location fileName lineNumber testName
          ++ "expected: (".toList ++ xText.chars ++ ") != 0 to be true".toList)) := by
  have hne := Z.ne0_eq x
  refine ⟨?_, ?_, ?_, ?_, rfl, rfl, ?_, ?_⟩
  · cases h : Z.eq0 x <;> simp [ASSERT_NULL, ASSERT_TRUE, cuu_assert_bool, h, hne]
  · cases h : Z.eq0 x <;> simp [ASSERT_NOT_NULL, ASSERT_TRUE, cuu_assert_bool, h, hne]
  · cases h : Z.eq0 x <;> simp [ASSERT_NULL, ASSERT_TRUE, cuu_assert_bool, h]
  · cases h : Z.eq0 x <;> simp [ASSERT_NOT_NULL, ASSERT_TRUE, cuu_assert_bool, h, hne]
  · rw [ASSERT_NULL, raisedMessage_ASSERT_TRUE]
    simp [ASSERT_NULL_text]
  · rw [ASSERT_NOT_NULL, raisedMessage_ASSERT_TRUE]
    simp [ASSERT_NOT_NULL_text]

/-- The assertions of the specification on a null and a non-null pointer:
`ASSERT_NULL` of a non-null pointer and `ASSERT_NOT_NULL` of the null pointer
raise, and the other two do not. -/
theorem ASSERT_NULL_on_pointers :
    raisedMessage (ASSERT_NULL pointerValue 4096 sampleTest sampleFile 12 sampleLabel)
      = some "t.cpp:12: [test <adds> in suite <Math>] expected: (adds) == 0 to be true".toList
    ∧ raisedMessage (ASSERT_NOT_NULL pointerValue 0 sampleTest sampleFile 12 sampleLabel)
      = some "t.cpp:12: [test <adds> in suite <Math>] expected: (adds) != 0 to be true".toList
    ∧ raisedMessage (ASSERT_NULL pointerValue 0 sampleTest sampleFile 12 sampleLabel) = none
    ∧ raisedMessage (ASSERT_NOT_NULL pointerValue 4096 sampleTest sampleFile 12 sampleLabel)
      = none := by
  decide

/-- C12: `cuu_fail` never returns normally; it raises the one failure whose
message is `location(file, line, label) ++ "error: " ++ message`, so
`fail("boom")` raises a failure whose message ends in `error: boom`. -/
theorem cuu_fail_always_raises (message : CString) (fileName : CString) (lineNumber : Nat)
    (testName : CString) :
    cuu_fail message fileName lineNumber testName
      = .error ⟨cuu_error_location fileName lineNumber testName ++ "error: ".toList
          ++ message.chars⟩
    ∧ cuu_fail message fileName lineNumber testName ≠ .ok ()
    ∧ cuu_fail ⟨"boom".toList, by decide⟩ fileName lineNumber testName
      = .error ⟨cuu_error_location fileName lineNumber testName ++ "error: boom".toList⟩ := by
  have h := fun m => cuu_fail_error_message_nul_free fileName lineNumber testName m
  refine ⟨?_, ?_, ?_⟩
  · simp only [cuu_fail, CString.toStdString, c_str_chars_of_nul_free _ (h message)]
    rfl
  · simp [cuu_fail]
  · simp only [cuu_fail, CString.toStdString, c_str_chars_of_nul_free _ (h _)]
    simp [cuu_fail_error_message]

/-- C13: `cuu_error_location` returns `file ++ ":" ++ decimal(line) ++ ": " ++
label ++ " "`, which is the text up to the label followed by one space. The
line is in decimal without padding: a number below ten is its digit, a larger
one is the rendering of its tenth followed by its last digit, so that every
character is a digit, the digits stand for the number, and the first is not
`0` unless the number is zero. -/
theorem cuu_error_location_format (fileName : CString) (lineNumber : Nat)
    (testName : CString) :
    cuu_error_location fileName lineNumber testName
      = fileName.chars ++ ":".toList ++ decimal lineNumber ++ ": ".toList ++ testName.chars
        ++ " ".toList
    ∧ cuu_error_location fileName lineNumber testName
      = (fileName.chars ++ ":".toList ++ decimal lineNumber ++ ": ".toList ++ testName.chars)
        ++ [' ']
    ∧ decimal lineNumber
      = (if lineNumber < 10 then [Nat.digitChar lineNumber]
        else decimal (lineNumber / 10) ++ [Nat.digitChar (lineNumber % 10)])
    ∧ (∀ c ∈ decimal lineNumber, c.isDigit = true)
    ∧ decimalValue (decimal lineNumber) = lineNumber
    ∧ (lineNumber ≠ 0 → (decimal lineNumber).head? ≠ some '0')
    ∧ cuu_error_location sampleFile 12 sampleLabel
      = "t.cpp:12: [test <adds> in suite <Math>] ".toList :=
  ⟨rfl, rfl, decimal_step lineNumber, decimal_isDigit lineNumber,
    decimalValue_decimal lineNumber, decimal_head lineNumber, by decide⟩

/-! ## Lemmas on runs of the registry -/

theorem runAll_testRunners {α : Type} (tcs : List (TestCase α)) (w : World α) :
    TestRegistry.runAll ⟨tcs.map TestRunner.toRunner⟩ w = .returned
      { cout := w.cout ++ ((tcs.filterMap expectedFailure).map reportLine).flatten
        constructed := w.constructed ++ tcs
        reported := w.reported ++ tcs.filterMap expectedFailure } :=
  for_each_testRunners tcs w

theorem for_each_append {α : Type} (f : Runner α → World α → Result α)
    (r1 r2 : List (Runner α)) : ∀ w : World α,
    for_each (r1 ++ r2) f w = (for_each r1 f w).andThen (for_each r2 f) := by
  induction r1 with
  | nil => intro w; simp [for_each, Result.andThen]
  | cons r rest ih =>
    intro w
    simp only [List.cons_append, for_each]
    cases h : f r w with
    | returned w1 => exact ih w1
    | raised t w1 => simp [Result.andThen]

theorem written_eq {α : Type} (tcs : List (TestCase α)) :
    written tcs = ((tcs.filterMap expectedFailure).map reportLine).flatten := by
  simp [written, runAll_testRunners, Result.world, emptyWorld]

theorem steps_runners {α : Type} (ops : List (Operation α)) : ∀ p : Process α,
    (p.steps ops).registry.runners
      = p.registry.runners ++ ops.filterMap Operation.registered := by
  induction ops with
  | nil => intro p; simp [Process.steps]
  | cons op rest ih =>
    intro p
    have e : p.steps (op :: rest) = (p.step op).steps rest := rfl
    rw [e, ih]
    cases op <;>
      simp [Process.step, TestRegistrar.construct, TestRegistry.addRunner,
        Operation.registered]

/-! ## Runs of the registry -/

/-- C14: for every registry of test runners, two calls of `runAll` in
succession run every test body exactly twice, first all of them in order and
then all of them in order again, and write the reports of the first run
followed by an identical second copy; the second run is not changed by what
the first one found. -/
theorem runAll_twice {α : Type} (tcs : List (TestCase α)) (w : World α) :
    TestRegistry.runAll ⟨tcs.map TestRunner.toRunner⟩ w = .returned
      { cout := w.cout ++ ((tcs.filterMap expectedFailure).map reportLine).flatten
        constructed := w.constructed ++ tcs
        reported := w.reported ++ tcs.filterMap expectedFailure }
    ∧ (TestRegistry.runAll ⟨tcs.map TestRunner.toRunner⟩ w).andThen
        (TestRegistry.runAll ⟨tcs.map TestRunner.toRunner⟩) = .returned
      { cout := w.cout ++ ((tcs.filterMap expectedFailure).map reportLine).flatten
          ++ ((tcs.filterMap expectedFailure).map reportLine).flatten
        constructed := w.constructed ++ tcs ++ tcs
        reported := w.reported ++ tcs.filterMap expectedFailure
          ++ tcs.filterMap expectedFailure } := by
  refine ⟨runAll_testRunners tcs w, ?_⟩
  rw [runAll_testRunners tcs w]
  simp only [Result.andThen]
  rw [runAll_testRunners tcs]

/-- C15: the registry starts empty; `addRunner`, and so the construction of a
registrar, appends exactly one runner at the end and leaves every earlier entry
at its position; `runAll` leaves the sequence unchanged. So after any sequence
of operations the earlier sequence is a beginning of the later one, and the
entries are the registered runners in the order of their registration. -/
theorem registry_only_grows {α : Type} (p : Process α) (ops : List (Operation α))
    (reg : TestRegistry α) (runner : Runner α) :
    (TestRegistry.initial α).runners = []
    ∧ (reg.addRunner runner).runners = reg.runners ++ [runner]
    ∧ (TestRegistrar.construct runner reg).runners = reg.runners ++ [runner]
    ∧ (∀ i : Nat, i < reg.runners.length →
        (reg.addRunner runner).runners[i]? = reg.runners[i]?)
    ∧ (p.step .runAll).registry = p.registry
    ∧ (p.steps ops).registry.runners
        = p.registry.runners ++ ops.filterMap Operation.registered
    ∧ p.registry.runners <+: (p.steps ops).registry.runners
    ∧ ((Process.initial α).steps ops).registry.runners
        = ops.filterMap Operation.registered := by
  refine ⟨rfl, rfl, rfl, ?_, rfl, steps_runners ops p, ?_, ?_⟩
  · intro i hi
    simp [TestRegistry.addRunner, List.getElem?_append_left hi]
  · rw [steps_runners]
    exact List.prefix_append _ _
  · rw [steps_runners]
    simp [Process.initial, TestRegistry.initial]

/-- C16: for every registry of test runners and every outcome of their bodies,
`main` calls `runAll` and then returns the status 0, whatever the number of
failures reported. -/
theorem main_returns_zero {α : Type} (tcs : List (TestCase α)) (w : World α) :
    main ⟨tcs.map TestRunner.toRunner⟩ w
      = (some 0, (TestRegistry.runAll ⟨tcs.map TestRunner.toRunner⟩ w).world)
    ∧ main ⟨tcs.map TestRunner.toRunner⟩ w = (some 0,
      { cout := w.cout ++ ((tcs.filterMap expectedFailure).map reportLine).flatten
        constructed := w.constructed ++ tcs
        reported := w.reported ++ tcs.filterMap expectedFailure }) := by
  simp [main, runAll_testRunners, Result.world]

/-- C17: the label that `TEST(S, T)` gives its test is `[test <T> in suite <S>]`;
it is the label in the runner's wrapping of an error and in the message of an
assertion of the body. -/
theorem TEST_label {α : Type} (suite test : CString) (body : Outcome α) (v : α)
    (w : World α) (message fileName : CString) (lineNumber : Nat) :
    (TEST suite test body).testName.chars
      = "[test <".toList ++ test.chars ++ "> in suite <".toList ++ suite.chars ++ ">]".toList
    ∧ (TEST sampleSuite sampleTest body).testName.chars
      = "[test <adds> in suite <Math>]".toList
    ∧ (TestRunner.run (TEST suite test (.raises (.other v))) w).world.cout
      = w.cout ++ "Caught unknown exception in [test <".toList ++ test.chars
        ++ "> in suite <".toList ++ suite.chars ++ ">]".toList ++ [endl]
    ∧ cuu_fail message fileName lineNumber (TEST suite test body).testName
      = .error ⟨fileName.chars ++ ":".toList ++ decimal lineNumber ++ ": [test <".toList
          ++ test.chars ++ "> in suite <".toList ++ suite.chars ++ ">] error: ".toList
          ++ message.chars⟩ := by
  refine ⟨rfl, rfl, ?_, ?_⟩
  · have h : NUL ∉ "Caught unknown exception in ".toList ++ (TEST_testName suite test).chars := by
      simp only [List.mem_append, not_or]
      exact ⟨by decide, (TEST_testName suite test).nul_free⟩
    rw [run_eq]
    have e : expectedFailure (TEST suite test (.raises (.other v)) : TestCase α)
        = some ⟨"Caught unknown exception in ".toList ++ (TEST_testName suite test).chars⟩ :=
      rfl
    rw [e]
    simp only [Result.world, Option.toList, List.map_cons, List.map_nil, List.flatten_cons,
      List.flatten_nil, List.append_nil, reportLine_of_nul_free _ h]
    simp [TEST_testName]
  · have h := cuu_fail_error_message_nul_free fileName lineNumber
      (TEST suite test body).testName message
    simp only [cuu_fail, CString.toStdString, c_str_chars_of_nul_free _ h]
    simp [cuu_fail_error_message, cuu_error_location, TEST, TEST_testName]

/-- C19: running the registry `r1 ++ r2` is running `r1` and then `r2`; for
test runners the text that a run writes does not depend on the world it starts
from, the text of `t1 ++ t2` is the text of `t1` followed by the text of `t2`,
the empty registry writes nothing, and the text that a runner contributes is
the same whatever runners precede or follow it. -/
theorem runAll_append {α : Type} (r1 r2 : List (Runner α)) (t1 t2 : List (TestCase α))
    (w : World α) :
    TestRegistry.runAll ⟨r1 ++ r2⟩ w
      = (TestRegistry.runAll ⟨r1⟩ w).andThen (TestRegistry.runAll ⟨r2⟩)
    ∧ (TestRegistry.runAll ⟨t1.map TestRunner.toRunner⟩ w).world.cout = w.cout ++ written t1
    ∧ (TestRegistry.runAll ⟨(t1 ++ t2).map TestRunner.toRunner⟩ w).world.cout
      = w.cout ++ written t1 ++ written t2
    ∧ written (t1 ++ t2) = written t1 ++ written t2
    ∧ written ([] : List (TestCase α)) = []
    ∧ TestRegistry.runAll ⟨[]⟩ w = .returned w
    ∧ ∀ (tc : TestCase α), written (t1 ++ tc :: t2) = written t1 ++ written [tc] ++ written t2 := by
  refine ⟨for_each_append _ r1 r2 w, ?_, ?_, ?_, ?_, rfl, ?_⟩
  · simp [runAll_testRunners, Result.world, written_eq]
  · rw [runAll_testRunners]
    simp [Result.world, written_eq]
  · simp [written_eq]
  · simp [written_eq]
  · intro tc
    simp only [written_eq, List.filterMap_append, List.map_append, List.flatten_append]
    cases h : expectedFailure tc <;> simp [List.filterMap_cons, h]

/-! ## Lemmas on bodies made of assertions -/

theorem truncateAtNUL_nul_free (s : StdString) : NUL ∉ truncateAtNUL s :=
  (c_str s).nul_free

theorem truncateAtNUL_eq_self_iff (s : StdString) : truncateAtNUL s = s ↔ NUL ∉ s := by
  constructor
  · intro h hs
    rw [← h] at hs
    exact truncateAtNUL_nul_free s hs
  · intro h
    exact c_str_chars_of_nul_free s h

theorem call_message_nul_free (fileName testName : CString) (a : Assertion)
    (e : cuu_exception) (h : a.call fileName testName = .error e) : NUL ∉ e.message := by
  cases a with
  | equal T V expected actual lineNumber =>
    simp only [Assertion.call, cuu_assert_equal] at h
    split at h
    · cases h
    · cases h; exact (c_str _).nul_free
  | equal_c_str expected actual lineNumber =>
    simp only [Assertion.call, cuu_assert_equal_c_str] at h
    split at h
    · cases h
    · cases h; exact (c_str _).nul_free
  | bool boolToCheck sense boolToCheckText lineNumber =>
    simp only [Assertion.call, cuu_assert_bool] at h
    split at h
    · cases h
    · cases h; exact (c_str _).nul_free
  | fail message lineNumber =>
    simp only [Assertion.call, cuu_fail] at h
    cases h; exact (c_str _).nul_free

theorem execAssertions_all_hold (fileName testName : CString) :
    ∀ statements : List Assertion,
    (∀ s ∈ statements, s.call fileName testName = .ok ()) →
    execAssertions fileName testName statements = (statements.length, .ok ()) := by
  intro statements
  induction statements with
  | nil => intro _; rfl
  | cons a rest ih =>
    intro h
    have ha := h a (List.mem_cons_self _ _)
    have hr := ih (fun s hs => h s (List.mem_cons_of_mem _ hs))
    simp [execAssertions, ha, hr]

theorem execAssertions_first_failure (fileName testName : CString) (a : Assertion)
    (post : List Assertion) (e : cuu_exception) (ha : a.call fileName testName = .error e) :
    ∀ pre : List Assertion,
    (∀ s ∈ pre, s.call fileName testName = .ok ()) →
    execAssertions fileName testName (pre ++ a :: post) = (pre.length + 1, .error e) := by
  intro pre
  induction pre with
  | nil => intro _; simp [execAssertions, ha]
  | cons b rest ih =>
    intro h
    have hb := h b (List.mem_cons_self _ _)
    have hr := ih (fun s hs => h s (List.mem_cons_of_mem _ hs))
    simp [execAssertions, hb, hr]

theorem execAssertions_ok_iff (fileName testName : CString) :
    ∀ statements : List Assertion,
    (execAssertions fileName testName statements).2 = .ok ()
      ↔ ∀ s ∈ statements, s.call fileName testName = .ok () := by
  intro statements
  induction statements with
  | nil => simp [execAssertions]
  | cons a rest ih =>
    cases ha : a.call fileName testName with
    | ok u => cases u; simp [execAssertions, ha, ih]
    | error e => simp [execAssertions, ha]

theorem run_reported {α : Type} (tc : TestCase α) (w : World α) :
    (TestRunner.run tc w).world.reported = w.reported ++ (expectedFailure tc).toList := by
  rw [run_eq]; rfl

/-! ## Bodies made of assertions, and the text of their failures -/

/-- C18: a body that is a sequence of assertion statements stops at the first
statement that raises: when the statements `pre` hold and the next one, `a`,
raises the failure `e`, the body has called `pre` and `a` and none of the
statements after `a`, its outcome is `e`, and one run of the test reports `e`
and nothing else; when all statements hold the body completes and the run
reports nothing. So a run reports at most one failure, and none if and only if
every statement holds. -/
theorem body_stops_at_first_failure {α : Type} (fileName testName : CString)
    (pre post : List Assertion) (a : Assertion) (e : cuu_exception) (w : World α)
    (hpre : ∀ s ∈ pre, s.call fileName testName = .ok ())
    (ha : a.call fileName testName = .error e) :
    execAssertions fileName testName (pre ++ a :: post) = (pre.length + 1, .error e)
    ∧ TestRunner.run (TestCase.ofAssertions fileName testName (pre ++ a :: post)) w
      = .returned
        { cout := w.cout ++ e.message ++ [endl]
          constructed := w.constructed ++ [⟨testName, .raises (.cuu e)⟩]
          reported := w.reported ++ [e] }
    ∧ execAssertions fileName testName pre = (pre.length, .ok ())
    ∧ TestRunner.run (TestCase.ofAssertions fileName testName pre) w
      = .returned
        { cout := w.cout
          constructed := w.constructed ++ [⟨testName, .completes⟩]
          reported := w.reported }
    ∧ ∀ statements : List Assertion,
      (TestRunner.run (TestCase.ofAssertions fileName testName statements) w).world.reported.length
          ≤ w.reported.length + 1
      ∧ ((TestRunner.run (TestCase.ofAssertions fileName testName statements)
            w).world.reported = w.reported
          ↔ ∀ s ∈ statements, s.call fileName testName = .ok ()) := by
  have h1 := execAssertions_first_failure fileName testName a post e ha pre hpre
  have h2 := execAssertions_all_hold fileName testName pre hpre
  refine ⟨h1, ?_, h2, ?_, ?_⟩
  · have hm : reportLine e = e.message ++ [endl] :=
      reportLine_of_nul_free e.message (call_message_nul_free fileName testName a e ha)
    have hc : (TestCase.ofAssertions fileName testName (pre ++ a :: post) : TestCase α)
        = ⟨testName, .raises (.cuu e)⟩ := by
      simp [TestCase.ofAssertions, h1, Outcome.ofExcept]
    rw [hc, run_eq]
    have hf : expectedFailure (⟨testName, .raises (.cuu e)⟩ : TestCase α) = some e := rfl
    rw [hf]
    simp only [Option.toList, List.map_cons, List.map_nil, List.flatten_cons,
      List.flatten_nil, List.append_nil, hm]
    simp only [List.append_assoc]
  · have hc : (TestCase.ofAssertions fileName testName pre : TestCase α)
        = ⟨testName, .completes⟩ := by
      simp [TestCase.ofAssertions, h2, Outcome.ofExcept]
    rw [hc, run_eq]
    have hf : expectedFailure (⟨testName, .completes⟩ : TestCase α) = none := rfl
    rw [hf]
    simp
  · intro statements
    rw [run_reported]
    have hiff := execAssertions_ok_iff fileName testName statements
    cases hx : (execAssertions fileName testName statements).2 with
    | ok u =>
      cases u
      have hf : expectedFailure
          (TestCase.ofAssertions fileName testName statements : TestCase α) = none := by
        simp [TestCase.ofAssertions, hx, Outcome.ofExcept, expectedFailure]
      rw [hf]
      simp only [Option.toList, List.append_nil, Nat.le_add_right, true_and, true_iff]
      exact hiff.1 hx
    | error e1 =>
      have hf : expectedFailure
          (TestCase.ofAssertions fileName testName statements : TestCase α) = some e1 := by
        simp [TestCase.ofAssertions, hx, Outcome.ofExcept, expectedFailure]
      rw [hf]
      simp only [Option.toList, List.length_append, List.length_singleton, Nat.le_refl,
        true_and]
      constructor
      · intro h
        have := congrArg List.length h
        simp at this
      · intro h
        rw [hiff.2 h] at hx
        cases hx

/-- C18 at a body of three statements, of which the second is `FAIL("boom")`:
two statements are called, and the sink receives the message of the second
only. -/
theorem body_stops_at_first_failure_witness :
    execAssertions sampleFile sampleLabel sampleStatements
      = (2, .error ⟨"t.cpp:13: [test <adds> in suite <Math>] error: boom".toList⟩)
    ∧ (TestRunner.run (TestCase.ofAssertions sampleFile sampleLabel sampleStatements)
        (emptyWorld Unit)).world.cout
      = "t.cpp:13: [test <adds> in suite <Math>] error: boom".toList ++ [endl] :=
  have h := body_stops_at_first_failure (α := Unit) sampleFile sampleLabel
    [.bool true true sampleText 12] [.fail ⟨"later".toList, by decide⟩ 14]
    (.fail ⟨"boom".toList, by decide⟩ 13)
    ⟨"t.cpp:13: [test <adds> in suite <Math>] error: boom".toList⟩ (emptyWorld Unit)
    (by intro s hs; rw [List.mem_singleton] at hs; rw [hs]; rfl) rfl
  ⟨h.1, congrArg (fun r => r.world.cout) h.2.1⟩

theorem truncateAtNUL_split (s : StdString) :
    s = truncateAtNUL s ∨ ∃ rest : StdString, s = truncateAtNUL s ++ NUL :: rest := by
  induction s with
  | nil => left; rfl
  | cons c cs ih =>
    by_cases hc : c = NUL
    · right
      refine ⟨cs, ?_⟩
      simp [truncateAtNUL, List.takeWhile, hc]
    · have e : truncateAtNUL (c :: cs) = c :: truncateAtNUL cs := by
        unfold truncateAtNUL
        rw [List.takeWhile_cons_of_pos (by simpa using hc)]
      rw [e]
      rcases ih with h | ⟨rest, h⟩
      · left; rw [← h]
      · right; exact ⟨rest, by rw [List.cons_append, ← h]⟩

theorem cuu_equals_error_message_nul_free_iff {T : Type} (print : T → StdString)
    (fileName : CString) (lineNumber : Nat) (testName : CString) (expected actual : T) :
    NUL ∉ cuu_equals_error_message print fileName lineNumber testName expected actual
      ↔ NUL ∉ print expected ∧ NUL ∉ print actual := by
  constructor
  · intro h
    unfold cuu_equals_error_message at h
    simp only [List.mem_append, not_or] at h
    exact ⟨h.1.1.1.2, h.1.2⟩
  · intro h
    exact cuu_equals_error_message_nul_free print fileName lineNumber testName expected
      actual h.1 h.2

/-- C20: the message of the failure that `cuu_assert_equal` (template and
overload for C strings), `cuu_assert_bool` and `cuu_fail` raise is the
formatted message cut in front of its first NUL character. A text cut so holds
no NUL, begins the text, is followed in it by a NUL unless it is the whole
text, and is the whole text if and only if the text holds no NUL. For the
template that is the case if and only if the printed forms of the expected and
the actual value hold no NUL; for the other three operations it is always the
case. -/
theorem failure_message_is_c_string {T : Type} (V : ValueType T) (expected actual : T)
    (cExpected cActual : CString) (observed sense : Bool) (text message : CString)
    (fileName : CString) (lineNumber : Nat) (testName : CString)
    (hne : V.eq expected actual = false) (hc : cExpected.chars ≠ cActual.chars)
    (hb : observed ≠ sense) :
    cuu_assert_equal V expected actual fileName lineNumber testName
      = .error ⟨truncateAtNUL
          (cuu_equals_error_message V.print fileName lineNumber testName expected actual)⟩
    ∧ cuu_assert_equal_c_str cExpected cActual fileName lineNumber testName
      = .error ⟨truncateAtNUL (cuu_equals_error_message CString.chars fileName lineNumber
          testName cExpected cActual)⟩
    ∧ cuu_assert_bool observed sense text fileName lineNumber testName
      = .error ⟨truncateAtNUL
          (cuu_bool_error_message fileName lineNumber testName text observed)⟩
    ∧ cuu_fail message fileName lineNumber testName
      = .error ⟨truncateAtNUL (cuu_fail_error_message fileName lineNumber testName message)⟩
    ∧ (∀ formatted : StdString,
        NUL ∉ truncateAtNUL formatted
        ∧ truncateAtNUL formatted <+: formatted
        ∧ (formatted = truncateAtNUL formatted
          ∨ ∃ rest : StdString, formatted = truncateAtNUL formatted ++ NUL :: rest)
        ∧ (truncateAtNUL formatted = formatted ↔ NUL ∉ formatted))
    ∧ (NUL ∉ cuu_equals_error_message V.print fileName lineNumber testName expected actual
        ↔ NUL ∉ V.print expected ∧ NUL ∉ V.print actual)
    ∧ NUL ∉ cuu_equals_error_message CString.chars fileName lineNumber testName cExpected
        cActual
    ∧ NUL ∉ cuu_bool_error_message fileName lineNumber testName text observed
    ∧ NUL ∉ cuu_fail_error_message fileName lineNumber testName message := by
  refine ⟨?_, ?_, ?_, rfl, ?_, cuu_equals_error_message_nul_free_iff _ _ _ _ _ _,
    cuu_equals_error_message_nul_free _ _ _ _ _ _ cExpected.nul_free cActual.nul_free,
    cuu_bool_error_message_nul_free _ _ _ _ _, cuu_fail_error_message_nul_free _ _ _ _⟩
  · simp only [cuu_assert_equal, hne, Bool.false_eq_true, if_false]
    rfl
  · have z : ¬ strcmp cExpected cActual = 0 :=
      fun z => hc ((strcmp_chars_eq_zero_iff _ _).1 z)
    simp only [cuu_assert_equal_c_str, z, if_false]
    rfl
  · simp only [cuu_assert_bool, hb, if_false]
    rfl
  · intro formatted
    refine ⟨truncateAtNUL_nul_free formatted, ?_, truncateAtNUL_split formatted,
      truncateAtNUL_eq_self_iff formatted⟩
    exact List.takeWhile_prefix _

/-- C20 at the `char` values NUL and `x`: the message ends in front of the NUL
that prints for the expected value. -/
theorem failure_message_is_c_string_witness :
    charValue.eq NUL 'x' = false ∧ sampleFile.chars ≠ sampleLabel.chars ∧ false ≠ true
    ∧ cuu_assert_equal charValue NUL 'x' sampleFile 12 sampleLabel
      = .error ⟨"t.cpp:12: [test <adds> in suite <Math>] expected: <".toList⟩ :=
  ⟨rfl, by decide, by decide,
    (failure_message_is_c_string charValue NUL 'x' sampleFile sampleLabel false true
      sampleText sampleText sampleFile 12 sampleLabel rfl (by decide) (by decide)).1⟩

end Cuultralight
